import Mathlib

/-!
Verification development for a blog-style FastAPI backend
(`app/routers/post.py`, `app/schemas.py`): a shallow embedding of the
post CRUD operations, the ownership checks, and the vote-count
aggregation query, together with theorems about their behaviour.

The persistent store is modelled as a list of post rows and a list of
vote rows; each HTTP handler becomes a pure function over the store.
A handler that raises `HTTPException` before any mutation is modelled
as returning the error together with the unchanged store.
-/

set_option maxHeartbeats 1000000

namespace App

/-- Error taxonomy of the service (spec section 7): `notFound` maps to
HTTP 404, `forbidden` to 403, `unauthorized` to 401. -/
inductive Err where
  | notFound
  | forbidden
  | unauthorized
deriving DecidableEq

/-- A row of the `posts` table: id (primary key), title, content,
published flag, owner_id (FK to users), created_at timestamp
(modelled as a Nat tick). -/
structure Post where
  id : Nat
  title : String
  content : String
  published : Bool
  owner_id : Nat
  created_at : Nat
deriving DecidableEq

/-- A row of the `votes` table. Modelled from the spec: the `models.py`
file defining the SQLAlchemy `Vote` model is not among the available
sources; spec section 6 gives the persisted schema
`votes(post_id, user_id, dir)`, and the join in `post.py` uses only
`Vote.post_id`. -/
structure Vote where
  post_id : Nat
  user_id : Nat
  dir : Int
deriving DecidableEq

/-- The database state: the `posts` rows, the `votes` rows, and the
next serial id the store will assign to an inserted post. -/
structure Store where
  posts : List Post
  votes : List Vote
  next_id : Nat
deriving DecidableEq

/-- Request body `schemas.PostCreate` (= `PostBase`): title, content
and the published flag. -/
structure PostCreate where
  title : String
  content : String
  published : Bool
deriving DecidableEq

/-- Default of the `published` field in `schemas.PostBase`
(`published: bool = True`). -/
def published_default : Bool := true

/-- A `PostCreate` payload in which `published` was left unspecified,
so pydantic fills in the schema default. -/
def PostCreate.withDefault (title content : String) : PostCreate :=
  PostCreate.mk title content published_default

/-- Request body `schemas.Vote`: `post_id` and `dir`, where `dir` is
declared as `conint(le=1)`. -/
structure VoteIn where
  post_id : Int
  dir : Int
deriving DecidableEq

/-- Pydantic validation of the `dir` field of `schemas.Vote`: the only
constraint in the source is `conint(le=1)`, i.e. `dir ≤ 1`. -/
def vote_dir_valid (v : VoteIn) : Bool :=
  decide (v.dir ≤ 1)

/-- Helper for `titleContains`: is the first char list a prefix of the
second. -/
def strHasPre : List Char → List Char → Bool
  | [], _ => true
  | _ :: _, [] => false
  | a :: as, b :: bs => a == b && strHasPre as bs

/-- Helper for `titleContains`: does the second char list contain the
first as a contiguous run. -/
def strHasSub (needle : List Char) : List Char → Bool
  | [] => strHasPre needle []
  | c :: cs => strHasPre needle (c :: cs) || strHasSub needle cs

/-- SQLAlchemy `models.Post.title.contains(search)` — SQL
`title LIKE '%' || search || '%'` — as case-sensitive substring
containment. -/
def titleContains (title search : String) : Bool :=
  strHasSub search.data title.data

/-- Number of `votes` rows whose `post_id` equals `pid`: the value of
`func.count(models.Vote.post_id)` for the group of post `pid` after the
outer join (`COUNT` of a column ignores the NULLs produced by a left
join, so a post with no matching vote rows gets 0). -/
def voteCount (votes : List Vote) (pid : Nat) : Nat :=
  (votes.filter (fun v => v.post_id == pid)).length

/-- The rows produced by the listing query of `get_posts` before
`LIMIT`/`OFFSET`: left join `Post` with `Vote` on `post_id`, group by
post id, count votes, filter by `title` containing `search`. -/
def joinedRows (s : Store) (search : String) : List (Post × Nat) :=
  (s.posts.filter (fun p => titleContains p.title search)).map
    (fun p => (p, voteCount s.votes p.id))

/-- Default of the `limit` query parameter of `get_posts`. -/
def default_limit : Nat := 10

/-- Default of the `skip` query parameter of `get_posts`. -/
def default_skip : Nat := 0

/-- Default of the `search` query parameter of `get_posts`. -/
def default_search : String := ""

/-- Handler `GET /posts/` (`get_posts` in `post.py`): the join/group/
count/filter query with `LIMIT limit OFFSET skip` applied (SQL applies
the offset before the limit). The resolved `current_user` is unused. -/
def get_posts (s : Store) (limit skip : Nat) (search : String) :
    List (Post × Nat) :=
  ((joinedRows s search).drop skip).take limit

/-- Handler `GET /posts/{id}` (`get_post` in `post.py`): the same
join/group/count query filtered to one id, `.first()`; 404 when no row
matches. It has no `current_user` dependency, so it can never signal
`Err.unauthorized`. -/
def get_post (s : Store) (id : Nat) : Except Err (Post × Nat) :=
  match s.posts.find? (fun p => p.id == id) with
  | none => Except.error Err.notFound
  | some p => Except.ok (p, voteCount s.votes p.id)

/-- Handler `POST /posts/` (`create_posts` in `post.py`):
`models.Post(owner_id=current_user.id, **post.dict())` inserted into the
store, which assigns the serial `id` and the `created_at` timestamp
(passed here as `now`). Returns the refreshed row and the new store. -/
def create_posts (s : Store) (user_id : Nat) (pc : PostCreate)
    (now : Nat) : Post × Store :=
  let p := Post.mk s.next_id pc.title pc.content pc.published user_id now
  (p, Store.mk (s.posts ++ [p]) s.votes (s.next_id + 1))

/-- Field-wise effect of `post_query.update(post.dict())` on one row:
`post.dict()` for a `PostCreate` holds exactly `title`, `content` and
`published`, so only those three columns change. -/
def applyUpdate (pc : PostCreate) (q : Post) : Post :=
  Post.mk q.id pc.title pc.content pc.published q.owner_id q.created_at

/-- Handler `PUT /posts/{id}` (`update_post` in `post.py`): look up the
post by id (404 when absent), check `owner_id == current_user.id` (403
when mismatched), then `post_query.update(post.dict())` on every row
matching the id filter, and return `post_query.first()` re-read from
the updated store. An exception leaves the store unchanged. -/
def update_post (s : Store) (user_id id : Nat) (pc : PostCreate) :
    Except Err Post × Store :=
  match s.posts.find? (fun p => p.id == id) with
  | none => (Except.error Err.notFound, s)
  | some p =>
    if p.owner_id != user_id then (Except.error Err.forbidden, s)
    else
      let posts2 := s.posts.map
        (fun q => if q.id == id then applyUpdate pc q else q)
      match posts2.find? (fun q => q.id == id) with
      | some q => (Except.ok q, Store.mk posts2 s.votes s.next_id)
      | none => (Except.error Err.notFound, Store.mk posts2 s.votes s.next_id)

/-- Handler `DELETE /posts/{id}` (`delete_post` in `post.py`): look up
the post by id (404 when absent), check ownership (403 when
mismatched), then `post.delete(...)` removes every row matching the id
filter. An exception leaves the store unchanged. -/
def delete_post (s : Store) (user_id id : Nat) :
    Except Err Unit × Store :=
  match s.posts.find? (fun p => p.id == id) with
  | none => (Except.error Err.notFound, s)
  | some p =>
    if p.owner_id != user_id then (Except.error Err.forbidden, s)
    else (Except.ok (),
      Store.mk (s.posts.filter (fun q => q.id != id)) s.votes s.next_id)

/-- The primary-key invariant of the `posts` table: ids are pairwise
distinct (`id` is the serial primary key in the migrations). -/
def idsUnique (s : Store) : Prop :=
  s.posts.Pairwise (fun a b => a.id ≠ b.id)

/-- SQL admissible outputs of the listing query: the `SELECT` issued by
`get_posts` carries no `ORDER BY`, so the database may return the
grouped rows in any order; `OFFSET`/`LIMIT` are then applied to the
order the engine happened to pick. -/
def admissibleListing (s : Store) (limit skip : Nat) (search : String)
    (out : List (Post × Nat)) : Prop :=
  ∃ rows : List (Post × Nat),
    rows.Perm (joinedRows s search) ∧ out = (rows.drop skip).take limit

/-- A concrete post owned by user 100, used to evaluate the theorems
on explicit inputs. -/
def postA : Post := Post.mk 1 "Title of post 1" "Content of post 1" true 100 5

/-- A concrete post owned by user 200 with no votes. -/
def postB : Post := Post.mk 2 "Title of post 2" "Content of post 2" true 200 6

/-- A concrete store: two posts and a single vote on post 1. -/
def demoStore : Store := Store.mk [postA, postB] [Vote.mk 1 100 1] 3

/-! ### Helper lemmas -/

/-- Updating a row never changes its id. -/
theorem applyUpdate_id (pc : PostCreate) (q : Post) :
    (applyUpdate pc q).id = q.id := rfl

/-- Updating a row never changes its owner. -/
theorem applyUpdate_owner (pc : PostCreate) (q : Post) :
    (applyUpdate pc q).owner_id = q.owner_id := rfl

/-- Updating a row never changes its creation time. -/
theorem applyUpdate_created (pc : PostCreate) (q : Post) :
    (applyUpdate pc q).created_at = q.created_at := rfl

/-- Updating a row with its own current field values is the identity. -/
theorem applyUpdate_self (q : Post) :
    applyUpdate (PostCreate.mk q.title q.content q.published) q = q := rfl

/-- If `find?` by id returns `p`, then mapping the per-row update over
the list and searching again returns the updated `p`. -/
theorem find?_map_applyUpdate (l : List Post) (id : Nat)
    (pc : PostCreate) (p : Post)
    (h : l.find? (fun q => q.id == id) = some p) :
    (l.map (fun q => if q.id == id then applyUpdate pc q else q)).find?
      (fun q => q.id == id) = some (applyUpdate pc p) := by
  induction l with
  | nil => simp [List.find?] at h
  | cons a as ih =>
    cases hc : a.id == id with
    | true =>
      simp only [List.find?, hc] at h
      cases h
      simp [List.find?, applyUpdate_id, hc]
    | false =>
      simp only [List.find?, hc] at h
      simpa [List.find?, hc] using ih h

/-- `find?` over a list extended on the right finds the appended
element when nothing on the left satisfies the predicate. -/
theorem find?_append_last (l : List Post) (x : Post) (p : Post → Bool)
    (hl : ∀ y ∈ l, p y = false) (hx : p x = true) :
    (l ++ [x]).find? p = some x := by
  induction l with
  | nil => simp [List.find?, hx]
  | cons a as ih =>
    have ha : p a = false := hl a (List.mem_cons_self a as)
    simpa [List.find?, ha] using
      ih (fun y hy => hl y (List.mem_cons_of_mem a hy))

/-- With pairwise-distinct ids, any member of the list carrying the
searched id is the element `find?` returned. -/
theorem eq_of_find?_of_mem (l : List Post) (id : Nat) (p q : Post)
    (hu : l.Pairwise (fun a b => a.id ≠ b.id))
    (h : l.find? (fun r => r.id == id) = some p)
    (hq : q ∈ l) (hid : q.id = id) : q = p := by
  induction l with
  | nil => simp [List.find?] at h
  | cons a as ih =>
    have hu1 : ∀ b ∈ as, a.id ≠ b.id := (List.pairwise_cons.mp hu).1
    have hu2 : as.Pairwise (fun a b => a.id ≠ b.id) :=
      (List.pairwise_cons.mp hu).2
    cases hc : a.id == id with
    | true =>
      simp only [List.find?, hc] at h
      cases h
      have haid : p.id = id := by simpa using hc
      rcases List.mem_cons.mp hq with rfl | hmem
      · rfl
      · exact absurd (haid.trans hid.symm) (hu1 q hmem)
    | false =>
      simp only [List.find?, hc] at h
      rcases List.mem_cons.mp hq with rfl | hmem
      · rw [hid] at hc
        simp at hc
      · exact ih hu2 h hmem

/-- Mapping the per-row update is the identity when the update fixes
every row carrying the searched id. -/
theorem map_update_id (l : List Post) (id : Nat) (pc : PostCreate)
    (h : ∀ q ∈ l, q.id = id → applyUpdate pc q = q) :
    l.map (fun q => if q.id == id then applyUpdate pc q else q) = l := by
  induction l with
  | nil => rfl
  | cons a as ih =>
    have ha : (if (a.id == id) = true then applyUpdate pc a else a) = a := by
      cases hc : a.id == id with
      | true =>
        simpa using h a (List.mem_cons_self a as) (by simpa using hc)
      | false => simp
    simp only [List.map_cons]
    rw [ha, ih (fun q hq => h q (List.mem_cons_of_mem a hq))]

/-- The empty search string matches every title. -/
theorem titleContains_empty (t : String) : titleContains t "" = true := by
  show strHasSub [] t.data = true
  cases t.data with
  | nil => rfl
  | cons c cs => simp [strHasSub, strHasPre]

/-- Membership in the pre-pagination listing rows: exactly the posts of
the store whose title matches, each paired with its vote count. -/
theorem mem_joinedRows (s : Store) (search : String)
    (pr : Post × Nat) :
    pr ∈ joinedRows s search ↔
      pr.1 ∈ s.posts ∧ titleContains pr.1.title search = true ∧
        pr.2 = voteCount s.votes pr.1.id := by
  unfold joinedRows
  constructor
  · intro h
    rcases List.mem_map.mp h with ⟨p, hp, rfl⟩
    rcases List.mem_filter.mp hp with ⟨hmem, hmatch⟩
    exact ⟨hmem, hmatch, rfl⟩
  · rintro ⟨hmem, hmatch, hv⟩
    refine List.mem_map.mpr ⟨pr.1, List.mem_filter.mpr ⟨hmem, hmatch⟩, ?_⟩
    exact Prod.ext rfl hv.symm

/-- With unique ids, looking up the id of a stored post finds exactly
that post. -/
theorem find?_id_of_mem (s : Store) (p : Post) (hu : idsUnique s)
    (hp : p ∈ s.posts) :
    s.posts.find? (fun q => q.id == p.id) = some p := by
  cases hf : s.posts.find? (fun q => q.id == p.id) with
  | none =>
    have := List.find?_eq_none.mp hf p hp
    simp at this
  | some q =>
    have := eq_of_find?_of_mem s.posts p.id q p hu hf hp rfl
    rw [this]

/-- Rows not carrying the updated id are untouched by the per-row
update map: membership is preserved in both directions. -/
theorem mem_map_update_iff (l : List Post) (id : Nat) (pc : PostCreate)
    (q : Post) (hqid : q.id ≠ id) :
    q ∈ l.map (fun r => if r.id == id then applyUpdate pc r else r) ↔
      q ∈ l := by
  induction l with
  | nil => simp
  | cons a as ih =>
    simp only [List.map_cons, List.mem_cons, ih]
    constructor
    · rintro (h | h)
      · cases hc : a.id == id with
        | true =>
          rw [if_pos hc] at h
          exact absurd (by rw [h, applyUpdate_id]; simpa using hc) hqid
        | false =>
          rw [if_neg (by simp [hc])] at h
          exact Or.inl h
      · exact Or.inr h
    · rintro (h | h)
      · cases hc : a.id == id with
        | true =>
          exact absurd (by rw [h]; simpa using hc) hqid
        | false =>
          rw [if_neg (by simp [hc])]
          exact Or.inl h
      · exact Or.inr h

/-- On a successful ownership check, `update_post` commits the mapped
store and returns the re-queried updated row. -/
theorem update_post_success (s : Store) (u id : Nat) (pc : PostCreate)
    (p : Post)
    (hfind : s.posts.find? (fun q => q.id == id) = some p)
    (hown : p.owner_id = u) :
    update_post s u id pc =
      (Except.ok (applyUpdate pc p),
        Store.mk
          (s.posts.map (fun q => if q.id == id then applyUpdate pc q else q))
          s.votes s.next_id) := by
  have hbne : (p.owner_id != u) = false := by simp [hown]
  have hmap := find?_map_applyUpdate s.posts id pc p hfind
  simp only [update_post, hfind, hbne]
  rw [hmap]
  rfl

/-! ### Claim theorems -/

/-- C1: for every post `P` owned by user `A` and every authenticated
user `B ≠ A`, an update or delete attempt on `P` by `B` signals
`Forbidden`, and the store — in particular `P` with all its fields — is
unchanged. -/
theorem C1_nonowner_update_delete_forbidden (s : Store) (id : Nat)
    (P : Post) (A B : Nat) (pc : PostCreate)
    (hfind : s.posts.find? (fun p => p.id == id) = some P)
    (hA : P.owner_id = A) (hBA : B ≠ A) :
    update_post s B id pc = (Except.error Err.forbidden, s) ∧
    delete_post s B id = (Except.error Err.forbidden, s) ∧
    (update_post s B id pc).2.posts.find? (fun p => p.id == id) = some P ∧
    (delete_post s B id).2.posts.find? (fun p => p.id == id) = some P := by
  have hne : (P.owner_id != B) = true := by
    simp only [bne_iff_ne, ne_eq, hA]
    exact fun h => hBA h.symm
  have hu : update_post s B id pc = (Except.error Err.forbidden, s) := by
    simp [update_post, hfind, hne]
  have hd : delete_post s B id = (Except.error Err.forbidden, s) := by
    simp [delete_post, hfind, hne]
  exact ⟨hu, hd, by rw [hu]; exact hfind, by rw [hd]; exact hfind⟩

/-- Witness for C1 on the concrete store: user 200 attempting to
update or delete post 1, which is owned by user 100. -/
theorem C1_witness :
    update_post demoStore 200 1 (PostCreate.mk "x" "y" false) =
      (Except.error Err.forbidden, demoStore) ∧
    delete_post demoStore 200 1 = (Except.error Err.forbidden, demoStore) := by
  have h := C1_nonowner_update_delete_forbidden demoStore 1 postA 100 200
    (PostCreate.mk "x" "y" false) rfl rfl (by decide)
  exact ⟨h.1, h.2.1⟩

/-- C2: for every id with no matching post, `get_post` signals
`NotFound`, and `update_post` and `delete_post` signal `NotFound` for
every caller — owner or not — because the existence check precedes the
ownership check; the store is unchanged. -/
theorem C2_nonexistent_id_not_found (s : Store) (id : Nat)
    (hfind : s.posts.find? (fun p => p.id == id) = none) :
    get_post s id = Except.error Err.notFound ∧
    (∀ u pc, update_post s u id pc = (Except.error Err.notFound, s)) ∧
    (∀ u, delete_post s u id = (Except.error Err.notFound, s)) :=
  ⟨by simp [get_post, hfind],
   fun u pc => by simp [update_post, hfind],
   fun u => by simp [delete_post, hfind]⟩

/-- Witness for C2 on the concrete store: id 99 does not exist, and
get/update/delete all answer `NotFound`, also for non-owner user 999. -/
theorem C2_witness :
    get_post demoStore 99 = Except.error Err.notFound ∧
    update_post demoStore 999 99 (PostCreate.mk "x" "y" true) =
      (Except.error Err.notFound, demoStore) ∧
    delete_post demoStore 999 99 = (Except.error Err.notFound, demoStore) := by
  have h := C2_nonexistent_id_not_found demoStore 99 rfl
  exact ⟨h.1, h.2.1 999 (PostCreate.mk "x" "y" true), h.2.2 999⟩

/-- C3: creating a post with `published` unspecified (so the schema
default `true` applies) and then fetching it by its id returns a post
whose title and content equal the inputs, whose published flag is
true, and whose owner is the creating user. The freshness hypothesis
is the store's guarantee that the assigned serial id is new. -/
theorem C3_create_then_get (s : Store) (uid : Nat)
    (title content : String) (now : Nat)
    (hfresh : ∀ p ∈ s.posts, p.id ≠ s.next_id) :
    get_post (create_posts s uid (PostCreate.withDefault title content) now).2
        (create_posts s uid (PostCreate.withDefault title content) now).1.id =
      Except.ok
        ((create_posts s uid (PostCreate.withDefault title content) now).1,
          voteCount s.votes s.next_id) ∧
    (create_posts s uid (PostCreate.withDefault title content) now).1.title
      = title ∧
    (create_posts s uid (PostCreate.withDefault title content) now).1.content
      = content ∧
    (create_posts s uid (PostCreate.withDefault title content) now).1.published
      = true ∧
    (create_posts s uid (PostCreate.withDefault title content) now).1.owner_id
      = uid := by
  have hfind := find?_append_last s.posts
    (Post.mk s.next_id title content published_default uid now)
    (fun p => p.id == s.next_id)
    (fun y hy => by simp [hfresh y hy])
    (by simp)
  refine ⟨?_, rfl, rfl, rfl, rfl⟩
  show get_post
      (Store.mk
        (s.posts ++ [Post.mk s.next_id title content published_default uid now])
        s.votes (s.next_id + 1))
      s.next_id = _
  simp only [get_post, hfind]
  rfl

/-- Witness for C3 on the concrete store: user 100 creates a post
titled t with content c; fetching the assigned id returns it with
published = true and owner 100. -/
theorem C3_witness :
    get_post
        (create_posts demoStore 100 (PostCreate.withDefault "t" "c") 7).2
        (create_posts demoStore 100 (PostCreate.withDefault "t" "c") 7).1.id =
      Except.ok
        ((create_posts demoStore 100 (PostCreate.withDefault "t" "c") 7).1,
          voteCount demoStore.votes demoStore.next_id) ∧
    (create_posts demoStore 100 (PostCreate.withDefault "t" "c") 7).1.title
      = "t" ∧
    (create_posts demoStore 100 (PostCreate.withDefault "t" "c") 7).1.content
      = "c" ∧
    (create_posts demoStore 100 (PostCreate.withDefault "t" "c") 7).1.published
      = true ∧
    (create_posts demoStore 100 (PostCreate.withDefault "t" "c") 7).1.owner_id
      = 100 :=
  C3_create_then_get demoStore 100 "t" "c" 7 (by decide)

/-- C4: every (post, count) pair produced by the listing or by
retrieval-by-id carries exactly the number of vote rows whose post_id
matches the post's id; a matching post is present in the joined rows
even with zero votes (outer-join semantics), and retrieval by its id
returns it rather than dropping it. -/
theorem C4_vote_count_outer_join (s : Store) (limit skip : Nat)
    (search : String) (id : Nat) (p : Post) (n : Nat) :
    (∀ pr ∈ get_posts s limit skip search,
      pr.2 = voteCount s.votes pr.1.id) ∧
    (get_post s id = Except.ok (p, n) → n = voteCount s.votes p.id) ∧
    (p ∈ s.posts → titleContains p.title search = true →
      (p, voteCount s.votes p.id) ∈ joinedRows s search) ∧
    (p ∈ s.posts → idsUnique s →
      get_post s p.id = Except.ok (p, voteCount s.votes p.id)) := by
  refine ⟨?_, ?_, ?_, ?_⟩
  · intro pr hpr
    have h1 : pr ∈ (joinedRows s search).drop skip :=
      List.mem_of_mem_take hpr
    have h2 : pr ∈ joinedRows s search := List.mem_of_mem_drop h1
    exact ((mem_joinedRows s search pr).mp h2).2.2
  · intro h
    unfold get_post at h
    cases hf : s.posts.find? (fun q => q.id == id) with
    | none => rw [hf] at h; simp at h
    | some q =>
      rw [hf] at h
      simp only [Except.ok.injEq, Prod.mk.injEq] at h
      rw [← h.1]
      exact h.2.symm
  · intro hmem hmatch
    exact (mem_joinedRows s search (p, voteCount s.votes p.id)).mpr
      ⟨hmem, hmatch, rfl⟩
  · intro hmem hu
    simp [get_post, find?_id_of_mem s p hu hmem]

/-- Witness for C4 on the concrete store: post 2 has zero vote rows,
is present in the joined rows with count 0, and retrieval by id 2
returns it with count 0. -/
theorem C4_witness :
    (postB, 0) ∈ joinedRows demoStore "" ∧
    get_post demoStore postB.id = Except.ok (postB, 0) := by
  have h := C4_vote_count_outer_join demoStore 10 0 "" 2 postB 0
  have hm : (postB, voteCount demoStore.votes postB.id) ∈
      joinedRows demoStore "" :=
    h.2.2.1 (by decide) (by decide)
  have hg : get_post demoStore postB.id =
      Except.ok (postB, voteCount demoStore.votes postB.id) :=
    h.2.2.2 (by decide) (by unfold idsUnique; decide)
  exact ⟨hm, hg⟩

/-- C5: with a positive limit, the listing returns only posts whose
title contains the search substring, returns at most `limit` of them,
and consists of the matched rows with the first `skip` omitted and the
next `limit` taken; the empty search string (the default) matches
every title, and the defaults are limit 10 and skip 0. -/
theorem C5_listing_filter_pagination (s : Store) (limit skip : Nat)
    (search : String) (_hl : 0 < limit) :
    (∀ pr ∈ get_posts s limit skip search,
      titleContains pr.1.title search = true) ∧
    (get_posts s limit skip search).length ≤ limit ∧
    get_posts s limit skip search =
      ((joinedRows s search).drop skip).take limit ∧
    (∀ t, titleContains t default_search = true) ∧
    default_limit = 10 ∧ default_skip = 0 := by
  refine ⟨?_, ?_, rfl, ?_, rfl, rfl⟩
  · intro pr hpr
    have h1 : pr ∈ (joinedRows s search).drop skip :=
      List.mem_of_mem_take hpr
    have h2 : pr ∈ joinedRows s search := List.mem_of_mem_drop h1
    exact ((mem_joinedRows s search pr).mp h2).2.1
  · exact List.length_take_le limit _
  · exact fun t => titleContains_empty t

/-- Witness for C5 on the concrete store with the default parameters:
both stored posts match the empty search, within the limit. -/
theorem C5_witness :
    (∀ pr ∈ get_posts demoStore 10 0 "",
      titleContains pr.1.title "" = true) ∧
    (get_posts demoStore 10 0 "").length ≤ 10 := by
  have h := C5_listing_filter_pagination demoStore 10 0 "" (by decide)
  exact ⟨h.1, h.2.1⟩

/-- C6: a successful update by the owner replaces exactly the three
payload fields title, content and published (full-replace PUT
semantics), and a PUT whose field values equal the stored row's
current values returns the row unchanged and leaves the store
identical. -/
theorem C6_update_full_replace (s : Store) (u id : Nat)
    (pc : PostCreate) (p : Post) (hu : idsUnique s)
    (hfind : s.posts.find? (fun q => q.id == id) = some p)
    (hown : p.owner_id = u) :
    (update_post s u id pc).1 = Except.ok (applyUpdate pc p) ∧
    (update_post s u id pc).2.posts.find? (fun q => q.id == id) =
      some (applyUpdate pc p) ∧
    update_post s u id (PostCreate.mk p.title p.content p.published) =
      (Except.ok p, s) := by
  have h1 := update_post_success s u id pc p hfind hown
  refine ⟨by rw [h1], ?_, ?_⟩
  · rw [h1]
    exact find?_map_applyUpdate s.posts id pc p hfind
  · have hfix : ∀ q ∈ s.posts, q.id = id →
        applyUpdate (PostCreate.mk p.title p.content p.published) q = q := by
      intro q hq hqid
      rw [eq_of_find?_of_mem s.posts id p q hu hfind hq hqid]
      exact applyUpdate_self p
    have h2 := update_post_success s u id
      (PostCreate.mk p.title p.content p.published) p hfind hown
    rw [h2, map_update_id s.posts id _ hfix, applyUpdate_self p]

/-- Witness for C6 on the concrete store: owner 100 updates post 1;
the returned row carries the new field values, and replaying the
current values of post 1 leaves the store identical. -/
theorem C6_witness :
    (update_post demoStore 100 1 (PostCreate.mk "x" "y" false)).1 =
      Except.ok (applyUpdate (PostCreate.mk "x" "y" false) postA) ∧
    update_post demoStore 100 1
        (PostCreate.mk postA.title postA.content postA.published) =
      (Except.ok postA, demoStore) := by
  have h := C6_update_full_replace demoStore 100 1
    (PostCreate.mk "x" "y" false) postA (by unfold idsUnique; decide) rfl rfl
  exact ⟨h.1, h.2.2⟩

/-- C7 counterexample: the claim that validation accepts the direction
exactly when it is 0 or 1 fails on the code: `conint(le=1)` accepts
the out-of-range value -1. -/
theorem C7_counterexample :
    vote_dir_valid (VoteIn.mk 1 (-1)) = true ∧
    (-1 : Int) ≠ 0 ∧ (-1 : Int) ≠ 1 := by
  refine ⟨by decide, by decide, by decide⟩

/-- C7 (amended): validation of the vote direction accepts 0 and 1 and
rejects every value greater than 1, but — since the only constraint is
`dir ≤ 1` — it also accepts every negative value. -/
theorem C7_dir_validation_le_one (v : VoteIn) :
    ((v.dir = 0 ∨ v.dir = 1) → vote_dir_valid v = true) ∧
    (1 < v.dir → vote_dir_valid v = false) ∧
    (v.dir < 0 → vote_dir_valid v = true) := by
  unfold vote_dir_valid
  refine ⟨fun h => ?_, fun h => ?_, fun h => ?_⟩
  · rcases h with h | h <;> simp [h]
  · simp only [decide_eq_false_iff_not]
    omega
  · simp only [decide_eq_true_eq]
    omega

/-- Witness for C7 (amended) at concrete payloads: direction 0 and 1
are accepted and direction 2 is rejected. -/
theorem C7_witness :
    vote_dir_valid (VoteIn.mk 5 0) = true ∧
    vote_dir_valid (VoteIn.mk 5 1) = true ∧
    vote_dir_valid (VoteIn.mk 5 2) = false := by
  have h0 := C7_dir_validation_le_one (VoteIn.mk 5 0)
  have h1 := C7_dir_validation_le_one (VoteIn.mk 5 1)
  have h2 := C7_dir_validation_le_one (VoteIn.mk 5 2)
  exact ⟨h0.1 (Or.inl rfl), h1.1 (Or.inr rfl), h2.2.1 (by decide)⟩

/-- C8: the listing query is emitted without ORDER BY, so SQL admits
more than one output order for the same fixed store state and
parameters: at the concrete store with the default parameters, the
two-row result is admissible in both orders, and the two orders
differ. The determinism the claim asserts is therefore not guaranteed
by the code. -/
theorem C8_listing_order_not_forced :
    admissibleListing demoStore default_limit default_skip default_search
      [(postA, 1), (postB, 0)] ∧
    admissibleListing demoStore default_limit default_skip default_search
      [(postB, 0), (postA, 1)] ∧
    ([(postA, 1), (postB, 0)] : List (Post × Nat)) ≠
      [(postB, 0), (postA, 1)] := by
  refine ⟨⟨[(postA, 1), (postB, 0)], List.Perm.refl _, by decide⟩,
          ⟨[(postB, 0), (postA, 1)], ?_, by decide⟩, by decide⟩
  show List.Perm [(postB, 0), (postA, 1)] [(postA, 1), (postB, 0)]
  exact List.Perm.swap _ _ _

/-- C9: a successful owner update changes at most the three payload
fields of the single matching post: the updated row keeps its id,
owner and creation time, the votes and the id counter are untouched,
and every other post (any id other than the updated one) is in the
store afterwards exactly when it was before. -/
theorem C9_update_frame (s : Store) (u id : Nat) (pc : PostCreate)
    (p : Post)
    (hfind : s.posts.find? (fun q => q.id == id) = some p)
    (hown : p.owner_id = u) :
    (update_post s u id pc).2.votes = s.votes ∧
    (update_post s u id pc).2.next_id = s.next_id ∧
    (update_post s u id pc).2.posts.find? (fun q => q.id == id) =
      some (applyUpdate pc p) ∧
    (applyUpdate pc p).id = p.id ∧
    (applyUpdate pc p).owner_id = p.owner_id ∧
    (applyUpdate pc p).created_at = p.created_at ∧
    (∀ q : Post, q.id ≠ id →
      ((q ∈ (update_post s u id pc).2.posts) ↔ q ∈ s.posts)) := by
  have h1 := update_post_success s u id pc p hfind hown
  refine ⟨by rw [h1], by rw [h1], ?_, rfl, rfl, rfl, ?_⟩
  · rw [h1]
    exact find?_map_applyUpdate s.posts id pc p hfind
  · intro q hqid
    rw [h1]
    exact mem_map_update_iff s.posts id pc q hqid

/-- Witness for C9 on the concrete store: owner 100 updates post 1;
the votes are untouched, post 1 carries the updated fields, and
post 2 is still present. -/
theorem C9_witness :
    (update_post demoStore 100 1 (PostCreate.mk "x" "y" false)).2.votes =
      demoStore.votes ∧
    (update_post demoStore 100 1
        (PostCreate.mk "x" "y" false)).2.posts.find?
      (fun q => q.id == 1) =
      some (applyUpdate (PostCreate.mk "x" "y" false) postA) ∧
    postB ∈ (update_post demoStore 100 1
      (PostCreate.mk "x" "y" false)).2.posts := by
  have h := C9_update_frame demoStore 100 1 (PostCreate.mk "x" "y" false)
    postA rfl rfl
  exact ⟨h.1, h.2.2.1, (h.2.2.2.2.2.2 postB (by decide)).mpr (by decide)⟩

/-- C10: `get_post` takes no current-user dependency, so its outcome
is a function of the store and the id alone: the (post, votes) pair
when the id exists, `NotFound` otherwise, and never `Unauthorized`. -/
theorem C10_get_post_requires_no_auth (s : Store) (id : Nat) :
    (s.posts.find? (fun p => p.id == id) = none →
      get_post s id = Except.error Err.notFound) ∧
    (∀ p, s.posts.find? (fun q => q.id == id) = some p →
      get_post s id = Except.ok (p, voteCount s.votes p.id)) ∧
    get_post s id ≠ Except.error Err.unauthorized := by
  refine ⟨fun h => by simp [get_post, h],
    fun p h => by simp [get_post, h], ?_⟩
  unfold get_post
  cases s.posts.find? (fun p => p.id == id) with
  | none => simp
  | some p => simp

/-- Witness for C10 on the concrete store: id 1 exists and is
returned with its vote count, id 99 answers `NotFound`, and neither
outcome is `Unauthorized`. -/
theorem C10_witness :
    get_post demoStore 99 = Except.error Err.notFound ∧
    get_post demoStore 1 = Except.ok (postA, voteCount demoStore.votes 1) ∧
    get_post demoStore 99 ≠ Except.error Err.unauthorized := by
  have h99 := C10_get_post_requires_no_auth demoStore 99
  have h1 := C10_get_post_requires_no_auth demoStore 1
  exact ⟨h99.1 rfl, h1.2.1 postA rfl, h99.2.2⟩

end App
